import Mathlib

/-!
Shallow embedding of the `eo-visual-scout` semantic search engine.

Source of truth: `src/eovs/search.py` (class `SemanticSearcher`) and
`src/eovs/api.py` (the `/search` endpoint).

Modelling conventions:
* Embedding vectors are lists of rationals (`Vec`); the source works with
  `float32` numpy arrays.  All the ranking logic only compares cosine
  similarities, and we represent each cosine value exactly as a pair
  `(num, den2)` standing for the real number `num / sqrt den2`
  (see `CosVal`), with a decidable order that is proved below to agree
  with the real-number order.
* `np.argsort` (ascending sort of indices by value) is modelled as an
  insertion sort of `List.range N`.  numpy's default `kind='quicksort'`
  is documented as not stable, so the order of *equal* scores is
  unspecified for large arrays; an executable model must pick some tie
  order, and the one picked here provably coincides with numpy only in
  its insertion-sort regime (arrays of at most 16 elements, which covers
  every concrete input evaluated in this file).  No universally
  quantified theorem below depends on the model's tie order: the
  properties proved about arbitrary inputs (score order, result count,
  membership, error behaviour) hold for every value-sorted permutation
  of the indices.
* The external CLIP model (`self.model.encode`) is not part of this
  repository; it is a parameter (`encodeText` / `encodeImage`) of the
  embedded `search`.
* The source rounds the returned score with `round(float(s), 4)` for
  presentation; rounding is monotone and fixes `1.0`, and the rounded
  value is determined by the exact one, so the embedding keeps the exact
  cosine value in the `score` field.
-/

attribute [local semireducible] Rat.mul Rat.add Rat.sub Rat.inv

deriving instance DecidableEq for Except

namespace EOVS

/-- An embedding vector (a row of the embedding matrix or a query vector). -/
abbrev Vec := List ℚ

/-- Dot product of two vectors, `float` arithmetic modelled exactly.
Mirrors the inner products inside `sentence_transformers.util.cos_sim`. -/
def dot (a b : Vec) : ℚ := (List.zipWith (fun x y => x * y) a b).sum

/-- Exact representation of one cosine-similarity value: the real number
`num / Real.sqrt den2`.  `util.cos_sim q e` produces
`dot q e / (norm q * norm e)`, i.e. `num = dot q e` and
`den2 = dot q q * dot e e`. -/
structure CosVal where
  num : ℚ
  den2 : ℚ
deriving DecidableEq

/-- Decidable comparison of two exact cosine values (sound for positive
`den2`, proved in `CosVal.le_iff_val` below): compare signs first, then
compare squares. -/
def CosVal.le (x y : CosVal) : Bool :=
  if x.num < 0 then
    if y.num < 0 then decide (y.num ^ 2 * x.den2 ≤ x.num ^ 2 * y.den2)
    else true
  else
    if y.num < 0 then false
    else decide (x.num ^ 2 * y.den2 ≤ y.num ^ 2 * x.den2)

/-- The real number represented by a `CosVal`. -/
noncomputable def CosVal.val (x : CosVal) : ℝ := (x.num : ℝ) / Real.sqrt (x.den2 : ℝ)

/-- The default `CosVal` used for (never reached) out-of-range lookups. -/
def CosVal.zero : CosVal := ⟨0, 1⟩

/-- Embedding of `util.cos_sim a b`: exact cosine similarity of two vectors.
`torch.nn.functional.normalize` maps a zero vector to the zero vector
(`eps` clamping), in which case the similarity is `0`. -/
def cosSim (a b : Vec) : CosVal :=
  let d := dot a b
  let s := dot a a * dot b b
  if s = 0 then CosVal.zero else ⟨d, s⟩

/-- Python string truthiness plus `str.strip()`: strip leading and
trailing whitespace (Lean's `Char.isWhitespace` covers the characters
relevant to the claims; Python additionally strips `\x0b`/`\x0c`). -/
def pyStrip (s : String) : String :=
  ⟨((s.data.dropWhile Char.isWhitespace).reverse.dropWhile Char.isWhitespace).reverse⟩

/-- One record of `metadata.json` (a catalog entry). -/
structure MetaEntry where
  id : ℤ
  filename : String
  class_name : String
deriving DecidableEq

/-- The `SearchResult` dataclass of `search.py` (score kept exact, see header). -/
structure SearchResult where
  id : ℕ
  filename : String
  class_name : String
  score : CosVal
deriving DecidableEq

/-- Embedding of `np.argsort(cos_scores_np)`: the indices `0 .. N-1` sorted ascending
by score.  This executable insertion-sort model picks one tie order; see
the header note: numpy's default quicksort leaves the tie order
unspecified, and no universal theorem below depends on it. -/
def argsort (scores : List CosVal) : List ℕ :=
  List.insertionSort
    (fun i j => CosVal.le (scores.getD i CosVal.zero) (scores.getD j CosVal.zero) = true)
    (List.range scores.length)

/-- Python slicing `l[:k]` for an `int` bound `k` (negative bounds count
from the end of the list). -/
def pyTake (k : ℤ) (l : List α) : List α :=
  if 0 ≤ k then l.take k.toNat else l.take ((l.length : ℤ) + k).toNat

/-- The result-building loop of `SemanticSearcher.search` (lines 149-162):
`metadata[idx]` raises `IndexError` when `idx` is out of range. -/
def buildResults (metadata : List MetaEntry) (scores : List CosVal) :
    List ℕ → Except String (List SearchResult)
  | [] => .ok []
  | idx :: rest =>
    match metadata.get? idx with
    | some meta =>
      match buildResults metadata scores rest with
      | .ok rs =>
        .ok (⟨idx, meta.filename, meta.class_name, scores.getD idx CosVal.zero⟩ :: rs)
      | .error e => .error e
    | none => .error "IndexError: list index out of range"

/-- Lines 136-164 of `SemanticSearcher.search`: cosine scores against every
row, `np.argsort(...)[::-1][:top_k]`, then result construction. -/
def rankResults (metadata : List MetaEntry) (embeddings : List Vec)
    (query_emb : Vec) (top_k : ℤ) : Except String (List SearchResult) :=
  let cos_scores := embeddings.map (fun e => cosSim query_emb e)
  let top_indices := pyTake top_k (argsort cos_scores).reverse
  buildResults metadata cos_scores top_indices

/-- The state a constructed `SemanticSearcher` holds (metadata list and
embedding matrix; the CLIP model itself is passed as encoder functions). -/
structure Searcher where
  metadata : List MetaEntry
  image_embeddings : List Vec
deriving DecidableEq

/-- Embedding of `SemanticSearcher.search`: dispatch between image and text encoding
(image takes precedence; `query and query.strip()` truthiness check),
then rank.  `ValueError` is modelled as `.error`. -/
def Searcher.search {Img : Type} (self : Searcher)
    (encodeText : String → Vec) (encodeImage : Img → Vec)
    (query : String) (image : Option Img) (top_k : ℤ) :
    Except String (List SearchResult) :=
  match image with
  | some img => rankResults self.metadata self.image_embeddings (encodeImage img) top_k
  | none =>
    if query ≠ "" ∧ pyStrip query ≠ "" then
      rankResults self.metadata self.image_embeddings (encodeText query) top_k
    else
      .error "ValueError: Must provide either a text query or an image."

/-- The two artifacts `SemanticSearcher.__init__` reads from `data_dir`:
`none` models an absent file, `some` its parsed contents. -/
structure DataDir where
  metadataFile : Option (List MetaEntry)
  embeddingsFile : Option (List Vec)

/-- Embedding of `SemanticSearcher.__init__`: check the required files exist (metadata
first, as in the `for path in (meta_path, npz_path)` loop), then load
them.  No alignment check between catalog length and embedding row count
is performed (faithful to the source). -/
def Searcher.init (d : DataDir) : Except String Searcher :=
  match d.metadataFile with
  | none => .error "FileNotFoundError: Required file not found: metadata.json"
  | some meta =>
    match d.embeddingsFile with
    | none => .error "FileNotFoundError: Required file not found: embeddings.npz"
    | some embs => .ok ⟨meta, embs⟩

/-- Incoming payload of `POST /search` (`SearchRequest` pydantic model). -/
structure SearchRequest where
  query : String
  image_base64 : String
  top_k : ℤ
deriving DecidableEq

/-- An HTTP error response (status code and detail). -/
structure ApiError where
  status_code : ℕ
  detail : String
deriving DecidableEq

/-- Successful response envelope of `POST /search` (latency omitted:
wall-clock time is not modelled). -/
structure SearchResponse where
  query : String
  results : List SearchResult
deriving DecidableEq

/-- The `/search` endpoint of `api.py`.  Pydantic validates
`top_k ∈ [1, 50]` before the handler runs (`422`); the handler then
checks the model is loaded (`503`), rejects `query = "" ∧
image_base64 = ""` (`400` — note: only the *empty* string is falsy),
decodes the image if present (`400` on failure), and calls
`searcher_instance.search`; an uncaught `ValueError` from the searcher
surfaces as the framework's generic `500`. -/
def apiSearch {Img : Type} (searcher_instance : Option Searcher)
    (decodeBase64Image : String → Except String Img)
    (encodeText : String → Vec) (encodeImage : Img → Vec)
    (req : SearchRequest) : Except ApiError SearchResponse :=
  if ¬ (1 ≤ req.top_k ∧ req.top_k ≤ 50) then
    .error ⟨422, "validation error"⟩
  else
    match searcher_instance with
    | none => .error ⟨503, "Model not loaded"⟩
    | some inst =>
      if req.query = "" ∧ req.image_base64 = "" then
        .error ⟨400, "Provide either query or image_base64"⟩
      else
        match
          (if req.image_base64 ≠ "" then
            match decodeBase64Image req.image_base64 with
            | .ok img => Except.ok (some img)
            | .error e => Except.error (ApiError.mk 400 ("Invalid base64 image data: " ++ e))
          else Except.ok none) with
        | .error e => .error e
        | .ok pil_image =>
          match inst.search encodeText encodeImage req.query pil_image req.top_k with
          | .error _ => .error ⟨500, "Internal Server Error"⟩
          | .ok rs =>
            .ok ⟨(if pil_image.isSome then "[Image Search]" else req.query), rs⟩

/-! ### Basic facts about `dot` -/

theorem dot_nil_left (b : Vec) : dot [] b = 0 := rfl

theorem dot_nil_right (a : Vec) : dot a [] = 0 := by
  cases a <;> rfl

theorem dot_cons (x y : ℚ) (u v : Vec) :
    dot (x :: u) (y :: v) = x * y + dot u v := by
  simp [dot]

theorem dot_self_nonneg (a : Vec) : 0 ≤ dot a a := by
  induction a with
  | nil => simp [dot]
  | cons x u ih =>
    rw [dot_cons]
    exact add_nonneg (mul_self_nonneg x) ih

/-- Cauchy-Schwarz for the list dot product. -/
theorem dot_sq_le (a : Vec) : ∀ b : Vec, dot a b ^ 2 ≤ dot a a * dot b b := by
  induction a with
  | nil => intro b; simp [dot]
  | cons x u ih =>
    intro b
    cases b with
    | nil => simp [dot_nil_right]
    | cons y v =>
      have hA : 0 ≤ dot u u := dot_self_nonneg u
      have hB : 0 ≤ dot v v := dot_self_nonneg v
      have hD : dot u v ^ 2 ≤ dot u u * dot v v := ih v
      have h1 : 0 ≤ dot u u * dot v v - dot u v ^ 2 := by linarith
      rw [dot_cons, dot_cons, dot_cons]
      rcases eq_or_lt_of_le hB with hB0 | hBpos
      · have hD0 : dot u v = 0 := by
          have h2 : dot u v ^ 2 ≤ 0 := by nlinarith
          exact pow_eq_zero_iff (n := 2) (by norm_num) |>.mp
            (le_antisymm h2 (sq_nonneg _))
        rw [hD0]
        nlinarith [mul_nonneg hA (mul_self_nonneg y)]
      · nlinarith [sq_nonneg (x * dot v v - y * dot u v),
          mul_nonneg (mul_self_nonneg y) h1, mul_nonneg hBpos.le h1]

/-! ### Soundness of the `CosVal` order -/

theorem CosVal.zero_den2_pos : (0 : ℚ) < CosVal.zero.den2 := by
  norm_num [CosVal.zero]

theorem cosSim_den2_pos (a b : Vec) : 0 < (cosSim a b).den2 := by
  unfold cosSim
  by_cases h : dot a a * dot b b = 0
  · rw [if_pos h]; exact CosVal.zero_den2_pos
  · rw [if_neg h]
    exact lt_of_le_of_ne (mul_nonneg (dot_self_nonneg a) (dot_self_nonneg b)) (Ne.symm h)

theorem CosVal.val_nonneg_of {x : CosVal} (h : 0 ≤ x.num) : 0 ≤ x.val :=
  div_nonneg (by exact_mod_cast h) (Real.sqrt_nonneg _)

theorem CosVal.val_neg_of {x : CosVal} (hx : 0 < x.den2) (h : x.num < 0) : x.val < 0 := by
  have hs : (0 : ℝ) < Real.sqrt (x.den2 : ℝ) :=
    Real.sqrt_pos.mpr (by exact_mod_cast hx)
  exact div_neg_of_neg_of_pos (by exact_mod_cast h) hs

/-- Comparing `p * sqrt dp` with `q * sqrt dq` for nonnegative `p`, `q`
reduces to comparing `p^2 * dp` with `q^2 * dq`. -/
theorem mul_sqrt_le_mul_sqrt_iff {p q dp dq : ℝ} (hdp : 0 ≤ dp) (hdq : 0 ≤ dq)
    (hp : 0 ≤ p) (hq : 0 ≤ q) :
    p * Real.sqrt dp ≤ q * Real.sqrt dq ↔ p ^ 2 * dp ≤ q ^ 2 * dq := by
  have ha : 0 ≤ p * Real.sqrt dp := mul_nonneg hp (Real.sqrt_nonneg _)
  have hb : 0 ≤ q * Real.sqrt dq := mul_nonneg hq (Real.sqrt_nonneg _)
  rw [mul_self_le_mul_self_iff ha hb]
  have e1 : p * Real.sqrt dp * (p * Real.sqrt dp) = p ^ 2 * dp := by
    rw [mul_mul_mul_comm, Real.mul_self_sqrt hdp]; ring
  have e2 : q * Real.sqrt dq * (q * Real.sqrt dq) = q ^ 2 * dq := by
    rw [mul_mul_mul_comm, Real.mul_self_sqrt hdq]; ring
  rw [e1, e2]

/-- The boolean comparison `CosVal.le` agrees with the order of the real
values represented, whenever both `den2` are positive (as is the case for
every value `cosSim` produces). -/
theorem CosVal.le_iff_val {x y : CosVal} (hx : 0 < x.den2) (hy : 0 < y.den2) :
    x.le y = true ↔ x.val ≤ y.val := by
  have hxR : (0 : ℝ) < (x.den2 : ℝ) := by exact_mod_cast hx
  have hyR : (0 : ℝ) < (y.den2 : ℝ) := by exact_mod_cast hy
  have hsx : (0 : ℝ) < Real.sqrt (x.den2 : ℝ) := Real.sqrt_pos.mpr hxR
  have hsy : (0 : ℝ) < Real.sqrt (y.den2 : ℝ) := Real.sqrt_pos.mpr hyR
  have hval : x.val ≤ y.val ↔
      (x.num : ℝ) * Real.sqrt (y.den2 : ℝ) ≤ (y.num : ℝ) * Real.sqrt (x.den2 : ℝ) :=
    div_le_div_iff₀ hsx hsy
  unfold CosVal.le
  by_cases hxn : x.num < 0
  · by_cases hyn : y.num < 0
    · rw [if_pos hxn, if_pos hyn, decide_eq_true_eq, hval]
      have hstep : (x.num : ℝ) * Real.sqrt (y.den2 : ℝ) ≤
          (y.num : ℝ) * Real.sqrt (x.den2 : ℝ) ↔
          (-(y.num : ℝ)) * Real.sqrt (x.den2 : ℝ) ≤
          (-(x.num : ℝ)) * Real.sqrt (y.den2 : ℝ) := by
        rw [neg_mul, neg_mul, neg_le_neg_iff]
      rw [hstep, mul_sqrt_le_mul_sqrt_iff hxR.le hyR.le
        (by exact_mod_cast neg_nonneg.mpr hyn.le) (by exact_mod_cast neg_nonneg.mpr hxn.le)]
      rw [neg_sq, neg_sq]
      constructor <;> intro h <;> exact_mod_cast h
    · rw [if_pos hxn, if_neg hyn]
      have h1 : x.val < 0 := CosVal.val_neg_of hx hxn
      have h2 : 0 ≤ y.val := CosVal.val_nonneg_of (not_lt.mp hyn)
      simp only [true_iff]
      exact le_of_lt (lt_of_lt_of_le h1 h2)
  · by_cases hyn : y.num < 0
    · rw [if_neg hxn, if_pos hyn]
      have h1 : y.val < 0 := CosVal.val_neg_of hy hyn
      have h2 : 0 ≤ x.val := CosVal.val_nonneg_of (not_lt.mp hxn)
      simp only [Bool.false_eq_true, false_iff, not_le]
      exact lt_of_lt_of_le h1 h2
    · rw [if_neg hxn, if_neg hyn, decide_eq_true_eq, hval]
      rw [mul_sqrt_le_mul_sqrt_iff hyR.le hxR.le
        (by exact_mod_cast not_lt.mp hxn) (by exact_mod_cast not_lt.mp hyn)]
      constructor <;> intro h <;> exact_mod_cast h

theorem CosVal.le_total' {x y : CosVal} (hx : 0 < x.den2) (hy : 0 < y.den2) :
    x.le y = true ∨ y.le x = true := by
  rw [CosVal.le_iff_val hx hy, CosVal.le_iff_val hy hx]
  exact le_total _ _

theorem CosVal.le_trans' {x y z : CosVal} (hx : 0 < x.den2) (hy : 0 < y.den2)
    (hz : 0 < z.den2) (h1 : x.le y = true) (h2 : y.le z = true) : x.le z = true := by
  rw [CosVal.le_iff_val hx hy] at h1
  rw [CosVal.le_iff_val hy hz] at h2
  rw [CosVal.le_iff_val hx hz]
  exact le_trans h1 h2

theorem CosVal.zero_val : CosVal.zero.val = 0 := by
  simp [CosVal.zero, CosVal.val]

/-- The cosine similarity of a nonzero vector with itself is exactly `1`. -/
theorem cosSim_self_val {q : Vec} (h : dot q q ≠ 0) : (cosSim q q).val = 1 := by
  have hq : 0 < dot q q := lt_of_le_of_ne (dot_self_nonneg q) (Ne.symm h)
  have hne : dot q q * dot q q ≠ 0 := mul_ne_zero h h
  unfold cosSim
  rw [if_neg hne]
  unfold CosVal.val
  have hcast : ((dot q q * dot q q : ℚ) : ℝ) = (dot q q : ℝ) * (dot q q : ℝ) := by
    push_cast; ring
  rw [hcast, Real.sqrt_mul_self (by exact_mod_cast hq.le)]
  exact div_self (by exact_mod_cast h)

/-- Every cosine similarity is at most `1` (Cauchy-Schwarz). -/
theorem cosSim_val_le_one (a b : Vec) : (cosSim a b).val ≤ 1 := by
  unfold cosSim
  by_cases h : dot a a * dot b b = 0
  · rw [if_pos h, CosVal.zero_val]; norm_num
  · rw [if_neg h]
    have hs : 0 < dot a a * dot b b :=
      lt_of_le_of_ne (mul_nonneg (dot_self_nonneg a) (dot_self_nonneg b)) (Ne.symm h)
    have hsR : (0 : ℝ) < ((dot a a * dot b b : ℚ) : ℝ) := by exact_mod_cast hs
    have hcs : ((dot a b : ℚ) : ℝ) ^ 2 ≤ ((dot a a * dot b b : ℚ) : ℝ) := by
      exact_mod_cast dot_sq_le a b
    unfold CosVal.val
    rw [div_le_one (Real.sqrt_pos.mpr hsR)]
    rcases le_or_lt ((dot a b : ℚ) : ℝ) 0 with hd | hd
    · exact le_trans hd (Real.sqrt_nonneg _)
    · exact (Real.le_sqrt hd.le hsR.le).mpr hcs

/-! ### The argsort layer -/

/-- The index comparison `np.argsort` sorts by: compare the scores stored
at the two indices. -/
abbrev scoreLE (scores : List CosVal) (i j : ℕ) : Prop :=
  CosVal.le (scores.getD i CosVal.zero) (scores.getD j CosVal.zero) = true

theorem getD_den2_pos {scores : List CosVal} (h : ∀ v ∈ scores, 0 < v.den2) (i : ℕ) :
    0 < (scores.getD i CosVal.zero).den2 := by
  rw [List.getD_eq_getElem?_getD]
  cases hv : scores[i]? with
  | none => exact CosVal.zero_den2_pos
  | some v =>
    have hmem : v ∈ scores := by
      rw [List.getElem?_eq_some_iff] at hv
      rcases hv with ⟨hlt, rfl⟩
      exact List.getElem_mem hlt
    exact h v hmem

theorem argsort_perm (scores : List CosVal) :
    List.Perm (argsort scores) (List.range scores.length) :=
  List.perm_insertionSort _ _

theorem argsort_length (scores : List CosVal) :
    (argsort scores).length = scores.length := by
  rw [(argsort_perm scores).length_eq, List.length_range]

theorem argsort_mem (scores : List CosVal) {i : ℕ} :
    i ∈ argsort scores ↔ i < scores.length := by
  rw [(argsort_perm scores).mem_iff, List.mem_range]

theorem argsort_nodup (scores : List CosVal) : (argsort scores).Nodup :=
  ((argsort_perm scores).symm.nodup (List.nodup_range _))

/-- The output of `argsort` is sorted ascending by score. -/
theorem argsort_sorted {scores : List CosVal} (h : ∀ v ∈ scores, 0 < v.den2) :
    (argsort scores).Pairwise (scoreLE scores) := by
  haveI : IsTotal ℕ (scoreLE scores) :=
    ⟨fun i j => CosVal.le_total' (getD_den2_pos h i) (getD_den2_pos h j)⟩
  haveI : IsTrans ℕ (scoreLE scores) :=
    ⟨fun i j k => CosVal.le_trans' (getD_den2_pos h i) (getD_den2_pos h j) (getD_den2_pos h k)⟩
  exact List.sorted_insertionSort _ _

/-! ### Characterising `buildResults` and `rankResults` -/

/-- Default catalog entry (only used through `List.getD` at positions the
lemmas prove to be in range). -/
def dflMeta : MetaEntry := ⟨0, "", ""⟩

/-- The result record the loop body constructs for index `idx`. -/
def mkResult (metadata : List MetaEntry) (scores : List CosVal) (idx : ℕ) : SearchResult :=
  ⟨idx, (metadata.getD idx dflMeta).filename, (metadata.getD idx dflMeta).class_name,
    scores.getD idx CosVal.zero⟩

theorem mkResult_eq_of_mem {metadata : List MetaEntry} {scores : List CosVal} {x : ℕ}
    {m : MetaEntry} (hm : metadata.get? x = some m) :
    mkResult metadata scores x =
      ⟨x, m.filename, m.class_name, scores.getD x CosVal.zero⟩ := by
  unfold mkResult
  rw [List.getD_eq_getElem?_getD, ← List.get?_eq_getElem?, hm]
  rfl

theorem buildResults_ok_iff (metadata : List MetaEntry) (scores : List CosVal)
    (idxs : List ℕ) (rs : List SearchResult) :
    buildResults metadata scores idxs = .ok rs ↔
      (∀ i ∈ idxs, i < metadata.length) ∧ rs = idxs.map (mkResult metadata scores) := by
  induction idxs generalizing rs with
  | nil =>
    constructor
    · intro h
      simp only [buildResults, Except.ok.injEq] at h
      exact ⟨by simp, by simp [← h]⟩
    · rintro ⟨-, rfl⟩
      simp [buildResults]
  | cons x t ih =>
    simp only [buildResults]
    cases hm : metadata.get? x with
    | none =>
      have hx : metadata.length ≤ x := by
        rw [List.get?_eq_getElem?] at hm
        exact List.getElem?_eq_none_iff.mp hm
      constructor
      · intro hcontra; cases hcontra
      · rintro ⟨hb, -⟩
        exact absurd (hb x (by simp)) (not_lt.mpr hx)
    | some m =>
      have hx : x < metadata.length := by
        rw [List.get?_eq_getElem?] at hm
        exact (List.getElem?_eq_some_iff.mp hm).1
      cases hb : buildResults metadata scores t with
      | error e =>
        constructor
        · intro hcontra; cases hcontra
        · rintro ⟨hball, hrs⟩
          have hok : buildResults metadata scores t = .ok (t.map (mkResult metadata scores)) :=
            (ih _).mpr ⟨fun i hi => hball i (by simp [hi]), rfl⟩
          rw [hb] at hok
          cases hok
      | ok rs' =>
        rcases (ih rs').mp hb with ⟨hall, hrs'⟩
        constructor
        · intro hok
          simp only [Except.ok.injEq] at hok
          refine ⟨?_, ?_⟩
          · intro i hi
            rcases List.mem_cons.mp hi with rfl | hit
            · exact hx
            · exact hall i hit
          · rw [← hok, List.map_cons, mkResult_eq_of_mem hm, hrs']
        · rintro ⟨-, rfl⟩
          rw [List.map_cons, mkResult_eq_of_mem hm, hrs']

theorem pyTake_sublist (k : ℤ) (l : List α) : List.Sublist (pyTake k l) l := by
  unfold pyTake
  split <;> exact List.take_sublist _ _

theorem pyTake_length_of_nonneg {k : ℤ} (hk : 0 ≤ k) (l : List α) :
    (pyTake k l).length = min k.toNat l.length := by
  unfold pyTake
  rw [if_pos hk, List.length_take]

theorem pyTake_head?_of_pos {k : ℤ} (hk : 1 ≤ k) (l : List α) :
    (pyTake k l).head? = l.head? := by
  unfold pyTake
  rw [if_pos (le_trans zero_le_one hk)]
  cases l with
  | nil => simp
  | cons a t =>
    have h1 : k.toNat = (k.toNat - 1) + 1 := by omega
    rw [h1, List.take_succ_cons]
    rfl

/-- The scores vector produced inside `rankResults` only holds values with
positive `den2`. -/
theorem mapScores_den2_pos (q : Vec) (embeddings : List Vec) :
    ∀ v ∈ embeddings.map (fun e => cosSim q e), 0 < v.den2 := by
  intro v hv
  rcases List.mem_map.mp hv with ⟨e, -, rfl⟩
  exact cosSim_den2_pos q e

theorem rankResults_ok_iff (metadata : List MetaEntry) (embeddings : List Vec)
    (q : Vec) (k : ℤ) (rs : List SearchResult) :
    rankResults metadata embeddings q k = .ok rs ↔
      (∀ i ∈ pyTake k (argsort (embeddings.map (fun e => cosSim q e))).reverse,
        i < metadata.length) ∧
      rs = (pyTake k (argsort (embeddings.map (fun e => cosSim q e))).reverse).map
        (mkResult metadata (embeddings.map (fun e => cosSim q e))) := by
  unfold rankResults
  exact buildResults_ok_iff _ _ _ _

/-- Concrete two-entry catalog used by witnesses and counterexamples. -/
def meta2 : List MetaEntry := [⟨0, "a.jpg", "Forest"⟩, ⟨1, "b.jpg", "River"⟩]

/-- Concrete three-entry catalog (one entry more than the concrete
two-row embedding matrices, for the misalignment scenario). -/
def meta3 : List MetaEntry := meta2 ++ [⟨2, "c.jpg", "Highway"⟩]

/-- Same filenames and class names as `meta2` but different stored ids. -/
def metaX : List MetaEntry := [⟨7, "a.jpg", "Forest"⟩, ⟨9, "b.jpg", "River"⟩]

/-- A successful `Searcher.search` is a successful `rankResults` call on
some encoded query vector. -/
theorem search_ok_rank {Img : Type} {self : Searcher} {encodeText : String → Vec}
    {encodeImage : Img → Vec} {query : String} {image : Option Img} {top_k : ℤ}
    {rs : List SearchResult}
    (h : self.search encodeText encodeImage query image top_k = .ok rs) :
    ∃ q, rankResults self.metadata self.image_embeddings q top_k = .ok rs := by
  unfold Searcher.search at h
  cases image with
  | some img => exact ⟨encodeImage img, h⟩
  | none =>
    by_cases hc : query ≠ "" ∧ pyStrip query ≠ ""
    · rw [if_pos hc] at h
      exact ⟨encodeText query, h⟩
    · rw [if_neg hc] at h
      cases h

/-- C1: for every embedding matrix, catalog, encoded query vector and
`top_k`, the list of results returned by the ranking part of
`SemanticSearcher.search` (`rankResults`) is sorted non-increasing by
score: each returned score is at least every score that follows it.
This is independent of the argsort tie order: any value-sorted
permutation of the indices, reversed and truncated, yields it. -/
theorem C1_sorted_nonincreasing (metadata : List MetaEntry) (embeddings : List Vec)
    (query_emb : Vec) (top_k : ℤ) (rs : List SearchResult)
    (h : rankResults metadata embeddings query_emb top_k = .ok rs) :
    rs.Pairwise (fun a b => b.score.val ≤ a.score.val) := by
  rcases (rankResults_ok_iff metadata embeddings query_emb top_k rs).mp h with ⟨-, hrs⟩
  have hpos := mapScores_den2_pos query_emb embeddings
  have hrevsorted :
      ((argsort (embeddings.map (fun e => cosSim query_emb e))).reverse).Pairwise
        (fun i j => scoreLE (embeddings.map (fun e => cosSim query_emb e)) j i) :=
    List.pairwise_reverse.mpr (argsort_sorted hpos)
  have htake := hrevsorted.sublist (pyTake_sublist top_k _)
  rw [hrs, List.pairwise_map]
  refine htake.imp ?_
  intro i j hij
  exact (CosVal.le_iff_val (getD_den2_pos hpos j) (getD_den2_pos hpos i)).mp hij

/-- Witness for C1 at a concrete input. -/
theorem C1_witness :
    rankResults meta2 [[1], [-1]] [1] 2 =
      .ok [⟨0, "a.jpg", "Forest", ⟨1, 1⟩⟩, ⟨1, "b.jpg", "River", ⟨-1, 1⟩⟩] ∧
    ([⟨0, "a.jpg", "Forest", ⟨1, 1⟩⟩, ⟨1, "b.jpg", "River", ⟨-1, 1⟩⟩] :
      List SearchResult).Pairwise (fun a b => b.score.val ≤ a.score.val) :=
  ⟨by decide, C1_sorted_nonincreasing meta2 [[1], [-1]] [1] 2 _ (by decide)⟩

/-- C2, evaluated at its failing input: the spec requires equal-score
ties to be broken by ascending row index (its determinism contract), but
with two equal-score rows the code returns the higher row index first,
because `np.argsort(scores)[::-1]` reverses the argsort tie order.  At
this two-element input numpy's default argsort is an insertion sort
(its stable regime), so the embedding provably coincides with the
program here; for larger arrays the default quicksort leaves the tie
order unspecified, so the required ascending order is not guaranteed
anywhere. -/
theorem C2_tie_order_inverted :
    Searcher.search ⟨meta2, [[1], [1]]⟩ (fun _ => [1]) (fun _ : Unit => []) "river" none 2 =
      .ok [⟨1, "b.jpg", "River", ⟨1, 1⟩⟩, ⟨0, "a.jpg", "Forest", ⟨1, 1⟩⟩] ∧
    ¬ ([⟨1, "b.jpg", "River", ⟨1, 1⟩⟩, ⟨0, "a.jpg", "Forest", ⟨1, 1⟩⟩] :
        List SearchResult).Pairwise
        (fun a b => a.score.val = b.score.val → a.id < b.id) := by
  refine ⟨by decide, ?_⟩
  intro hp
  have h1 := List.rel_of_pairwise_cons hp (List.mem_cons_self _ _)
  have h2 := h1 rfl
  simp at h2

/-- C3 as stated is false for a negative requested count: Python slicing
`[:top_k]` with `top_k = -1` drops the last element, so a two-row matrix
yields one result, not `min(-1, 2) = -1` results. -/
theorem C3_counterexample :
    Searcher.search ⟨meta2, [[1], [-1]]⟩ (fun _ => [1]) (fun _ : Unit => []) "river" none (-1) =
      .ok [⟨0, "a.jpg", "Forest", ⟨1, 1⟩⟩] ∧
    ¬ ((1 : ℤ) = min (-1) 2) :=
  ⟨by decide, by decide⟩

/-- C3 amended: for every *nonnegative* requested count `top_k`,
`SemanticSearcher.search` returns exactly `min top_k N` results, never
more; when `top_k` exceeds `N` the count is capped at `N`. -/
theorem C3_length_min {Img : Type} (self : Searcher) (encodeText : String → Vec)
    (encodeImage : Img → Vec) (query : String) (image : Option Img) (top_k : ℤ)
    (rs : List SearchResult) (hk : 0 ≤ top_k)
    (h : self.search encodeText encodeImage query image top_k = .ok rs) :
    rs.length = min top_k.toNat self.image_embeddings.length := by
  rcases search_ok_rank h with ⟨q, hr⟩
  rcases (rankResults_ok_iff self.metadata self.image_embeddings q top_k rs).mp hr
    with ⟨-, hrs⟩
  rw [hrs, List.length_map, pyTake_length_of_nonneg hk, List.length_reverse,
    argsort_length, List.length_map]

/-- Witness for C3's amended theorem at a concrete input. -/
theorem C3_witness :
    (0 : ℤ) ≤ 5 ∧
    Searcher.search ⟨meta2, [[1], [-1]]⟩ (fun _ => [1]) (fun _ : Unit => []) "river" none 5 =
      .ok [⟨0, "a.jpg", "Forest", ⟨1, 1⟩⟩, ⟨1, "b.jpg", "River", ⟨-1, 1⟩⟩] ∧
    ([⟨0, "a.jpg", "Forest", ⟨1, 1⟩⟩, ⟨1, "b.jpg", "River", ⟨-1, 1⟩⟩] :
      List SearchResult).length = min (5 : ℤ).toNat ([[1], [-1]] : List Vec).length :=
  ⟨by decide, by decide,
    C3_length_min ⟨meta2, [[1], [-1]]⟩ (fun _ => [1]) (fun _ : Unit => [])
      "river" none 5 _ (by decide) (by decide)⟩

/-- C4: when both a text query and an image are supplied,
`SemanticSearcher.search` scores only against the image-derived embedding:
for a fixed image, two different query strings yield identical results. -/
theorem C4_image_precedence {Img : Type} (self : Searcher) (encodeText : String → Vec)
    (encodeImage : Img → Vec) (q1 q2 : String) (img : Img) (top_k : ℤ)
    (hq : q1 ≠ q2) :
    self.search encodeText encodeImage q1 (some img) top_k =
      self.search encodeText encodeImage q2 (some img) top_k := rfl

/-- Witness for C4 at a concrete input. -/
theorem C4_witness :
    ("forest" ≠ "river") ∧
    Searcher.search ⟨meta2, [[1], [-1]]⟩ (fun _ => [1]) (fun _ : Unit => [-1])
        "forest" (some ()) 5 =
      Searcher.search ⟨meta2, [[1], [-1]]⟩ (fun _ => [1]) (fun _ : Unit => [-1])
        "river" (some ()) 5 :=
  ⟨by decide,
    C4_image_precedence ⟨meta2, [[1], [-1]]⟩ (fun _ => [1]) (fun _ : Unit => [-1])
      "forest" "river" () 5 (by decide)⟩

/-- C5 as stated is false at the service boundary: a whitespace-only
query with no image is not rejected with the invalid-argument status 400;
it passes the API guard (which only checks for the empty string) and the
searcher's `ValueError` surfaces as a 500. -/
theorem C5_counterexample :
    apiSearch (some ⟨meta2, [[1], [-1]]⟩) (fun _ => Except.error "bad")
        (fun _ => [1]) (fun _ : Unit => []) ⟨" ", "", 5⟩ =
      .error ⟨500, "Internal Server Error"⟩ ∧
    (500 : ℕ) ≠ 400 :=
  ⟨by decide, by decide⟩

/-- C5 amended: with no image and a query that is empty or whitespace-only,
`SemanticSearcher.search` fails with `ValueError` before any scoring; the
API's 400 invalid-argument guard fires only in the exactly-empty case
(empty query string and empty image payload). -/
theorem C5_invalid_argument :
    (∀ {Img : Type} (self : Searcher) (encodeText : String → Vec)
      (encodeImage : Img → Vec) (query : String) (top_k : ℤ),
      pyStrip query = "" →
      self.search encodeText encodeImage query (none : Option Img) top_k =
        .error "ValueError: Must provide either a text query or an image.") ∧
    (∀ {Img : Type} (inst : Searcher) (decodeBase64Image : String → Except String Img)
      (encodeText : String → Vec) (encodeImage : Img → Vec) (top_k : ℤ),
      1 ≤ top_k → top_k ≤ 50 →
      apiSearch (some inst) decodeBase64Image encodeText encodeImage ⟨"", "", top_k⟩ =
        .error ⟨400, "Provide either query or image_base64"⟩) := by
  constructor
  · intro Img self encT encI query k hq
    unfold Searcher.search
    rw [if_neg]
    rintro ⟨-, h2⟩
    exact h2 hq
  · intro Img inst dec encT encI k h1 h2
    unfold apiSearch
    rw [if_neg (not_not_intro ⟨h1, h2⟩)]
    simp

/-- Witness for C5's amended theorem at concrete inputs. -/
theorem C5_witness :
    (pyStrip " " = "" ∧
      Searcher.search ⟨meta2, [[1], [-1]]⟩ (fun _ => [1]) (fun _ : Unit => []) " " none 5 =
        .error "ValueError: Must provide either a text query or an image.") ∧
    ((1 : ℤ) ≤ 5 ∧ (5 : ℤ) ≤ 50 ∧
      apiSearch (some ⟨meta2, [[1], [-1]]⟩) (fun _ => Except.error "bad")
          (fun _ => [1]) (fun _ : Unit => []) ⟨"", "", 5⟩ =
        .error ⟨400, "Provide either query or image_base64"⟩) :=
  ⟨⟨by decide, C5_invalid_argument.1 ⟨meta2, [[1], [-1]]⟩ (fun _ => [1]) (fun _ : Unit => [])
      " " 5 (by decide)⟩,
    ⟨by decide, by decide, C5_invalid_argument.2 ⟨meta2, [[1], [-1]]⟩
      (fun _ => Except.error "bad") (fun _ => [1]) (fun _ : Unit => []) 5
      (by decide) (by decide)⟩⟩

/-- C6, evaluated at its failing input: with a three-entry catalog and a
two-row embedding matrix, `SemanticSearcher.__init__` succeeds and
`search` serves results without any error — the mismatch is never
detected, contradicting the claim (the spec itself flags the missing
check as an open risk). -/
theorem C6_mismatch_not_detected :
    Searcher.init ⟨some meta3, some [[1], [-1]]⟩ = .ok ⟨meta3, [[1], [-1]]⟩ ∧
    meta3.length ≠ ([[1], [-1]] : List Vec).length ∧
    Searcher.search ⟨meta3, [[1], [-1]]⟩ (fun _ => [1]) (fun _ : Unit => []) "water" none 2 =
      .ok [⟨0, "a.jpg", "Forest", ⟨1, 1⟩⟩, ⟨1, "b.jpg", "River", ⟨-1, 1⟩⟩] :=
  ⟨by decide, by decide, by decide⟩

/-- C7: if either required artifact (metadata or embeddings file) is
absent, `SemanticSearcher.__init__` fails with a `FileNotFoundError`
and no searcher is constructed. -/
theorem C7_missing_file_init_fails (d : DataDir)
    (h : d.metadataFile = none ∨ d.embeddingsFile = none) :
    Searcher.init d = .error "FileNotFoundError: Required file not found: metadata.json" ∨
    Searcher.init d = .error "FileNotFoundError: Required file not found: embeddings.npz" := by
  rcases d with ⟨mf, ef⟩
  cases mf with
  | none => exact Or.inl rfl
  | some meta =>
    cases ef with
    | none => exact Or.inr rfl
    | some embs =>
      rcases h with h | h <;> cases h

/-- Witness for C7 at a concrete input. -/
theorem C7_witness :
    ((DataDir.mk none (some [[1]])).metadataFile = none ∨
      (DataDir.mk none (some [[1]])).embeddingsFile = none) ∧
    (Searcher.init ⟨none, some [[1]]⟩ =
        .error "FileNotFoundError: Required file not found: metadata.json" ∨
      Searcher.init ⟨none, some [[1]]⟩ =
        .error "FileNotFoundError: Required file not found: embeddings.npz") :=
  ⟨Or.inl rfl, C7_missing_file_init_fails ⟨none, some [[1]]⟩ (Or.inl rfl)⟩

/-- C8 as stated is false: with duplicate rows `[[1], [1]]` and the query
equal to row 0 (non-zero), the top-1 result is row 1, not row 0 (the
reversed argsort puts the higher tied index first). -/
theorem C8_counterexample :
    ([[1], [1]] : List Vec).get? 0 = some [1] ∧ dot [1] [1] ≠ 0 ∧
    rankResults meta2 [[1], [1]] [1] 1 = .ok [⟨1, "b.jpg", "River", ⟨1, 1⟩⟩] ∧
    (1 : ℕ) ≠ 0 :=
  ⟨by decide, by decide, by decide, by decide⟩

/-- C8 amended: ranking a matrix against a query equal to one of its own
non-zero rows returns a top-1 result whose similarity is exactly `1`
(that row, or another row at similarity `1` such as a duplicate). -/
theorem C8_top1_score_one (metadata : List MetaEntry) (embeddings : List Vec)
    (q : Vec) (i : ℕ) (top_k : ℤ) (rs : List SearchResult)
    (hrow : embeddings.get? i = some q) (hnz : dot q q ≠ 0) (hk : 1 ≤ top_k)
    (h : rankResults metadata embeddings q top_k = .ok rs) :
    ∃ r, rs.head? = some r ∧ r.score.val = 1 := by
  have hpos := mapScores_den2_pos q embeddings
  have hiN : i < embeddings.length := by
    rw [List.get?_eq_getElem?] at hrow
    exact (List.getElem?_eq_some_iff.mp hrow).1
  have hle1 : ∀ j : ℕ,
      ((embeddings.map (fun e => cosSim q e)).getD j CosVal.zero).val ≤ 1 := by
    intro j
    rw [List.getD_eq_getElem?_getD]
    cases hj : (embeddings.map (fun e => cosSim q e))[j]? with
    | none =>
      rw [Option.getD_none, CosVal.zero_val]
      norm_num
    | some v =>
      rw [Option.getD_some]
      rcases List.getElem?_eq_some_iff.mp hj with ⟨hlt, hv⟩
      rw [← hv, List.getElem_map]
      exact cosSim_val_le_one q _
  have hgi : (embeddings.map (fun e => cosSim q e)).getD i CosVal.zero = cosSim q q := by
    rw [List.getD_eq_getElem?_getD, List.getElem?_map, ← List.get?_eq_getElem?, hrow]
    rfl
  rcases (rankResults_ok_iff metadata embeddings q top_k rs).mp h with ⟨-, hrs⟩
  cases hrevc : (argsort (embeddings.map (fun e => cosSim q e))).reverse with
  | nil =>
    exfalso
    have hlen : (argsort (embeddings.map (fun e => cosSim q e))).reverse.length = 0 := by
      rw [hrevc]; rfl
    rw [List.length_reverse, argsort_length, List.length_map] at hlen
    omega
  | cons h0 t =>
    have htk : pyTake top_k (h0 :: t) = h0 :: List.take (top_k.toNat - 1) t := by
      unfold pyTake
      rw [if_pos (le_trans zero_le_one hk)]
      have h1 : top_k.toNat = (top_k.toNat - 1) + 1 := by omega
      conv_lhs => rw [h1]
      rw [List.take_succ_cons]
    rw [hrevc, htk] at hrs
    refine ⟨mkResult metadata (embeddings.map (fun e => cosSim q e)) h0, by rw [hrs]; rfl, ?_⟩
    have hscore : (mkResult metadata (embeddings.map (fun e => cosSim q e)) h0).score =
        (embeddings.map (fun e => cosSim q e)).getD h0 CosVal.zero := rfl
    rw [hscore]
    have hrevsorted := List.pairwise_reverse.mpr (argsort_sorted hpos)
    rw [hrevc] at hrevsorted
    have himem : i ∈ h0 :: t := by
      rw [← hrevc, List.mem_reverse, argsort_mem, List.length_map]
      exact hiN
    have hge1 : 1 ≤ ((embeddings.map (fun e => cosSim q e)).getD h0 CosVal.zero).val := by
      rcases List.mem_cons.mp himem with rfl | hit
      · rw [hgi, cosSim_self_val hnz]
      · have hle := List.rel_of_pairwise_cons hrevsorted hit
        have := (CosVal.le_iff_val (getD_den2_pos hpos i) (getD_den2_pos hpos h0)).mp hle
        rw [hgi, cosSim_self_val hnz] at this
        exact this
    exact le_antisymm (hle1 h0) hge1

/-- Witness for C8's amended theorem at a concrete input. -/
theorem C8_witness :
    ([[1], [-1]] : List Vec).get? 0 = some [1] ∧ dot [1] [1] ≠ 0 ∧ (1 : ℤ) ≤ 2 ∧
    (∃ r, ([⟨0, "a.jpg", "Forest", ⟨1, 1⟩⟩, ⟨1, "b.jpg", "River", ⟨-1, 1⟩⟩] :
      List SearchResult).head? = some r ∧ r.score.val = 1) :=
  ⟨by decide, by decide, by decide,
    C8_top1_score_one meta2 [[1], [-1]] [1] 0 2 _ (by decide) (by decide) (by decide)
      (by decide)⟩

/-- The result-building loop reads only `filename` and `class_name` from
the catalog: two catalogs equal on those fields yield identical results. -/
theorem buildResults_ext {metaA metaB : List MetaEntry}
    (hmap : metaA.map (fun m => (m.filename, m.class_name)) =
      metaB.map (fun m => (m.filename, m.class_name)))
    (scores : List CosVal) (idxs : List ℕ) :
    buildResults metaA scores idxs = buildResults metaB scores idxs := by
  induction idxs with
  | nil => rfl
  | cons x t ih =>
    simp only [buildResults, List.get?_eq_getElem?]
    have hget : (metaA[x]?).map (fun m => (m.filename, m.class_name)) =
        (metaB[x]?).map (fun m => (m.filename, m.class_name)) := by
      rw [← List.getElem?_map, ← List.getElem?_map, hmap]
    cases h1 : metaA[x]? with
    | none =>
      cases h2 : metaB[x]? with
      | none => rfl
      | some m2 =>
        rw [h1, h2] at hget
        exact Option.noConfusion hget
    | some m1 =>
      cases h2 : metaB[x]? with
      | none =>
        rw [h1, h2] at hget
        exact Option.noConfusion hget
      | some m2 =>
        rw [h1, h2] at hget
        simp only [Option.map_some', Option.some.injEq, Prod.mk.injEq] at hget
        rw [ih]
        cases hb : buildResults metaB scores t with
        | error e => rfl
        | ok rs' => simp only [hget.1, hget.2]

/-- C9: the `id` field of every returned result is the positional row
index of the matched row, and the id stored in the catalog record is
never consulted: (a) results are invariant under changes to the stored
ids, and (b) looking the returned `id` up as a *position* in the catalog
recovers exactly the returned `filename` and `class_name`. -/
theorem C9_id_positional :
    (∀ (metaA metaB : List MetaEntry) (embeddings : List Vec) (q : Vec) (k : ℤ),
      metaA.map (fun m => (m.filename, m.class_name)) =
        metaB.map (fun m => (m.filename, m.class_name)) →
      rankResults metaA embeddings q k = rankResults metaB embeddings q k) ∧
    (∀ (metadata : List MetaEntry) (embeddings : List Vec) (q : Vec) (k : ℤ)
      (rs : List SearchResult) (r : SearchResult),
      rankResults metadata embeddings q k = .ok rs → r ∈ rs →
      ∃ m, metadata.get? r.id = some m ∧ r.filename = m.filename ∧
        r.class_name = m.class_name) := by
  constructor
  · intro metaA metaB embeddings q k hmap
    unfold rankResults
    exact buildResults_ext hmap _ _
  · intro metadata embeddings q k rs r h hr
    rcases (rankResults_ok_iff metadata embeddings q k rs).mp h with ⟨hbound, hrs⟩
    rw [hrs] at hr
    rcases List.mem_map.mp hr with ⟨i, hi, rfl⟩
    have hlt : i < metadata.length := hbound i hi
    have hm : metadata.get? i = some metadata[i] := by
      rw [List.get?_eq_getElem?]
      exact List.getElem?_eq_getElem hlt
    have hgd : (metadata[i]?).getD dflMeta = metadata[i] := by
      rw [List.getElem?_eq_getElem hlt]
      rfl
    exact ⟨metadata[i], hm, by simp [mkResult, hgd], by simp [mkResult, hgd]⟩

/-- Witness for C9 at concrete inputs: `metaX` stores ids 7 and 9, yet
the search output is identical to the one for `meta2` (ids 0 and 1). -/
theorem C9_witness :
    (meta2.map (fun m => (m.filename, m.class_name)) =
      metaX.map (fun m => (m.filename, m.class_name))) ∧
    rankResults meta2 [[1], [-1]] [1] 2 = rankResults metaX [[1], [-1]] [1] 2 ∧
    (∃ m, meta2.get? (⟨0, "a.jpg", "Forest", ⟨1, 1⟩⟩ : SearchResult).id = some m ∧
      (⟨0, "a.jpg", "Forest", ⟨1, 1⟩⟩ : SearchResult).filename = m.filename ∧
      (⟨0, "a.jpg", "Forest", ⟨1, 1⟩⟩ : SearchResult).class_name = m.class_name) :=
  ⟨by decide, C9_id_positional.1 meta2 metaX [[1], [-1]] [1] 2 (by decide),
    C9_id_positional.2 meta2 [[1], [-1]] [1] 2
      [⟨0, "a.jpg", "Forest", ⟨1, 1⟩⟩, ⟨1, "b.jpg", "River", ⟨-1, 1⟩⟩]
      ⟨0, "a.jpg", "Forest", ⟨1, 1⟩⟩ (by decide) (by decide)⟩

/-- C10: the service boundary and the searcher disagree on whitespace-only
queries: for a request with no image and a non-empty, whitespace-only
query (and an in-bounds `top_k`), the API's 400 guard does not fire —
the searcher's `ValueError` escapes as the framework's generic 500 — while
`SemanticSearcher.search` itself raises `ValueError` on that query. -/
theorem C10_whitespace_query_500 {Img : Type} (inst : Searcher)
    (decodeBase64Image : String → Except String Img) (encodeText : String → Vec)
    (encodeImage : Img → Vec) (req : SearchRequest)
    (himg : req.image_base64 = "") (hne : req.query ≠ "") (hws : pyStrip req.query = "")
    (h1 : 1 ≤ req.top_k) (h2 : req.top_k ≤ 50) :
    apiSearch (some inst) decodeBase64Image encodeText encodeImage req =
      .error ⟨500, "Internal Server Error"⟩ ∧
    inst.search encodeText encodeImage req.query (none : Option Img) req.top_k =
      .error "ValueError: Must provide either a text query or an image." := by
  have hsearch : inst.search encodeText encodeImage req.query (none : Option Img) req.top_k =
      .error "ValueError: Must provide either a text query or an image." := by
    unfold Searcher.search
    rw [if_neg]
    rintro ⟨-, hq2⟩
    exact hq2 hws
  refine ⟨?_, hsearch⟩
  unfold apiSearch
  rw [if_neg (not_not_intro ⟨h1, h2⟩), himg]
  simp only [if_neg (show ¬ (("" : String) ≠ "") from fun hne2 => hne2 rfl), hsearch]
  rw [if_neg (show ¬ (req.query = "" ∧ True) from fun hand => hne hand.1)]

/-- Witness for C10 at concrete inputs. -/
theorem C10_witness :
    (SearchRequest.mk " " "" 5).image_base64 = "" ∧
    (SearchRequest.mk " " "" 5).query ≠ "" ∧
    pyStrip (SearchRequest.mk " " "" 5).query = "" ∧
    (1 : ℤ) ≤ (SearchRequest.mk " " "" 5).top_k ∧
    (SearchRequest.mk " " "" 5).top_k ≤ 50 ∧
    (apiSearch (some ⟨meta2, [[1], [-1]]⟩) (fun _ => Except.error "bad") (fun _ => [1])
        (fun _ : Unit => []) (SearchRequest.mk " " "" 5) =
        .error ⟨500, "Internal Server Error"⟩ ∧
      Searcher.search ⟨meta2, [[1], [-1]]⟩ (fun _ => [1]) (fun _ : Unit => [])
        (SearchRequest.mk " " "" 5).query none (SearchRequest.mk " " "" 5).top_k =
        .error "ValueError: Must provide either a text query or an image.") :=
  ⟨rfl, by decide, by decide, by decide, by decide,
    C10_whitespace_query_500 ⟨meta2, [[1], [-1]]⟩ (fun _ => Except.error "bad")
      (fun _ => [1]) (fun _ : Unit => []) (SearchRequest.mk " " "" 5) rfl (by decide)
      (by decide) (by decide) (by decide)⟩

end EOVS
